import Mathlib

/-!
# Rule renderer definitions of felix (`go/felix/rules/rule_defs.go`)

A shallow embedding of the naming constants, the historic-name registries,
the `Config` / `ruleRenderer` records, `ruleRenderer.ipSetConfig` and
`NewRenderer`, followed by the properties established about them.

Conventions of the embedding:

* a Go `string` is an immutable sequence of bytes, so it is a list of
  `uint8`; the literals of the source are written with `lit`, which takes
  the UTF-8 bytes of the literal;
* the logrus calls of `NewRenderer` are made explicit: the function returns
  the renderer together with the list of log entries it emitted, in order;
* a logrus `Panic` call aborts the function: `ipSetConfig` returns an
  `Except` whose error carries the panic message;
* `*ipsets.IPVersionConfig` lives in another package; the pointed-to type is
  a parameter and a possibly-nil pointer to it is an `Option`.
-/

namespace Felix.Rules

/-! ## Go base types -/

/-- An unsigned 8-bit integer of Go. -/
abbrev uint8 := Fin 256

/-- A Go string: a sequence of bytes. -/
abbrev GoString := List uint8

/-- The bytes of a string literal of the source (its UTF-8 encoding). -/
def lit (s : String) : GoString := s.toUTF8.data.toList.map (fun b => b.val)

/-- Go standard library `strings.HasPrefix`:
`len(s) >= len(prefix) && s[0:len(prefix)] == prefix`. -/
def HasPrefix (s pfx : GoString) : Bool :=
  decide (s.length ≥ pfx.length) && (s.take pfx.length == pfx)

/-- Go standard library `strings.HasSuffix`:
`len(s) >= len(suffix) && s[len(s)-len(suffix):] == suffix`. -/
def HasSuffix (s sfx : GoString) : Bool :=
  decide (s.length ≥ sfx.length) && (s.drop (s.length - sfx.length) == sfx)

/-! ## Constants (rule_defs.go, lines 26-72) -/

def ChainNamePrefix : GoString := lit "cali"
def IPSetNamePrefix : GoString := lit "cali"

def ChainFilterInput : GoString := ChainNamePrefix ++ lit "-INPUT"
def ChainFilterForward : GoString := ChainNamePrefix ++ lit "-FORWARD"
def ChainFilterOutput : GoString := ChainNamePrefix ++ lit "-OUTPUT"

def ChainNATPrerouting : GoString := ChainNamePrefix ++ lit "-PREROUTING"
def ChainNATPostrouting : GoString := ChainNamePrefix ++ lit "-POSTROUTING"
def ChainNATOutgoing : GoString := ChainNamePrefix ++ lit "-nat-outgoing"

def IPSetIDNATOutgoingAllPools : GoString := lit "all-ipam-pools"
def IPSetIDNATOutgoingMasqPools : GoString := lit "masq-ipam-pools"

def IPSetIDAllHostIPs : GoString := lit "all-hosts"

def PolicyInboundPfx : GoString := ChainNamePrefix ++ lit "pi-"
def PolicyOutboundPfx : GoString := ChainNamePrefix ++ lit "po-"

def ChainWorkloadToHost : GoString := ChainNamePrefix ++ lit "-wl-to-host"
def ChainFromWorkloadDispatch : GoString := ChainNamePrefix ++ lit "-from-wl-dispatch"
def ChainToWorkloadDispatch : GoString := ChainNamePrefix ++ lit "-to-wl-dispatch"

def ChainDispatchToHostEndpoint : GoString := ChainNamePrefix ++ lit "-to-host-endpoint"
def ChainDispatchFromHostEndpoint : GoString := ChainNamePrefix ++ lit "-from-host-endpoint"

def WorkloadToEndpointPfx : GoString := ChainNamePrefix ++ lit "tw-"
def WorkloadFromEndpointPfx : GoString := ChainNamePrefix ++ lit "fw-"

def HostToEndpointPfx : GoString := ChainNamePrefix ++ lit "th-"
def HostFromEndpointPfx : GoString := ChainNamePrefix ++ lit "fh-"

def RuleHashPrefix : GoString := lit "cali:"

/-! ## Historic registries (rule_defs.go, lines 74-84) -/

/-- All the prefixes that have been used for chains. -/
def AllHistoricChainNamePrefixes : List GoString := [lit "felix-", lit "cali"]

/-- All the prefixes that have been used for IP sets. -/
def AllHistoricIPSetNamePrefixes : List GoString := [lit "felix-", lit "cali"]

/-- Extra IP set names of older versions that do not fit the versioned pattern. -/
def LegacyV4IPSetNames : List GoString :=
  [lit "felix-masq-ipam-pools", lit "felix-all-ipam-pools"]

/-! ## Collections of the constants, for statements that range over them -/

/-- The eleven fixed chain-name constants, in source order. -/
def fixedChainNames : List GoString :=
  [ChainFilterInput, ChainFilterForward, ChainFilterOutput,
   ChainNATPrerouting, ChainNATPostrouting, ChainNATOutgoing,
   ChainWorkloadToHost, ChainFromWorkloadDispatch, ChainToWorkloadDispatch,
   ChainDispatchToHostEndpoint, ChainDispatchFromHostEndpoint]

/-- The six entity-kind sub-prefixes, in source order. -/
def entityKindPfxs : List GoString :=
  [PolicyInboundPfx, PolicyOutboundPfx,
   WorkloadToEndpointPfx, WorkloadFromEndpointPfx,
   HostToEndpointPfx, HostFromEndpointPfx]

/-! ## Actions and logging -/

/-- Modelled from the spec: the `iptables.Action` variants (package
`iptables` is not part of the sources at hand). Section 3 of the
specification lists the closed set Accept, Drop, Return, Log(prefix),
Masquerade, Jump(target-chain) and DNAT/SNAT-style NAT actions;
`rule_defs.go` builds `LogAction{Prefix: ...}`, `AcceptAction{}`,
`DropAction{}` and `ReturnAction{}`. -/
inductive Action where
  | AcceptAction
  | DropAction
  | ReturnAction
  | LogAction (Prefix : GoString)
  | MasqAction
  | JumpAction (Target : GoString)
  | DNATAction (DestAddr : GoString)
  | SNATAction (ToAddr : GoString)
  deriving DecidableEq, Repr

/-- The logrus levels used in `rule_defs.go`. -/
inductive Level where
  | PanicLevel
  | WarnLevel
  | InfoLevel
  deriving DecidableEq, Repr

/-- One emitted log entry. -/
structure LogEntry where
  level : Level
  msg : GoString
  deriving DecidableEq, Repr

/-! ## Config and renderer (rule_defs.go, lines 103-176) -/

/-- The `Config` struct; `net.IP` is a byte slice. -/
structure Config (IPVersionConfig : Type) where
  IPSetConfigV4 : Option IPVersionConfig
  IPSetConfigV6 : Option IPVersionConfig
  WorkloadIfacePrefixes : List GoString
  IptablesMarkAccept : Nat
  IptablesMarkNextTier : Nat
  OpenStackMetadataIP : List uint8
  OpenStackMetadataPort : Nat
  OpenStackSpecialCasesEnabled : Bool
  IPIPEnabled : Bool
  IPIPTunnelAddress : List uint8
  ActionOnDrop : GoString
  EndpointToHostAction : GoString

/-- The `ruleRenderer` struct: the embedded `Config` and the two derived
action lists. -/
structure ruleRenderer (IPVersionConfig : Type) extends Config IPVersionConfig where
  dropActions : List Action
  inputAcceptActions : List Action

variable {IPVersionConfig : Type}

/-- The method `(*ruleRenderer).ipSetConfig`: the logrus `Panic` call of the
last branch aborts with its message. -/
def ruleRenderer.ipSetConfig (r : ruleRenderer IPVersionConfig) (ipVersion : uint8) :
    Except GoString (Option IPVersionConfig) :=
  if ipVersion = 4 then
    Except.ok r.IPSetConfigV4
  else if ipVersion = 6 then
    Except.ok r.IPSetConfigV6
  else
    Except.error (lit "Unknown IP version")

/-- The function `NewRenderer`: the renderer it returns and the log entries
it emits. -/
def NewRenderer (config : Config IPVersionConfig) :
    ruleRenderer IPVersionConfig × List LogEntry :=
  let dropActions₀ : List Action := []
  let log₀ : List LogEntry := []
  let dropActions₁ :=
    if HasPrefix config.ActionOnDrop (lit "LOG-") then
      dropActions₀ ++ [Action.LogAction (lit "calico-drop")]
    else dropActions₀
  let log₁ :=
    if HasPrefix config.ActionOnDrop (lit "LOG-") then
      log₀ ++ [⟨Level.WarnLevel,
        lit "Action on drop includes LOG.  All dropped packets will be logged."⟩]
    else log₀
  let dropActions :=
    if HasSuffix config.ActionOnDrop (lit "ACCEPT") then
      dropActions₁ ++ [Action.AcceptAction]
    else dropActions₁ ++ [Action.DropAction]
  let log₂ :=
    if HasSuffix config.ActionOnDrop (lit "ACCEPT") then
      log₁ ++ [⟨Level.WarnLevel,
        lit "Action on drop set to ACCEPT.  Calico security is disabled!"⟩]
    else log₁
  let inputAcceptActions :=
    if config.EndpointToHostAction = lit "DROP" then dropActions
    else if config.EndpointToHostAction = lit "ACCEPT" then [Action.AcceptAction]
    else [Action.ReturnAction]
  let log₃ :=
    if config.EndpointToHostAction = lit "DROP" then
      log₂ ++ [⟨Level.InfoLevel, lit "Workload to host packets will be dropped."⟩]
    else if config.EndpointToHostAction = lit "ACCEPT" then
      log₂ ++ [⟨Level.InfoLevel, lit "Workload to host packets will be accepted."⟩]
    else
      log₂ ++ [⟨Level.InfoLevel,
        lit "Workload to host packets will be returned to INPUT chain."⟩]
  ({ toConfig := config, dropActions := dropActions,
     inputAcceptActions := inputAcceptActions }, log₃)

/-- A configuration with the two action options set and every other field
empty; used to state the scenarios. -/
def exampleConfig (actionOnDrop endpointToHostAction : GoString) : Config Unit :=
  { IPSetConfigV4 := none, IPSetConfigV6 := none, WorkloadIfacePrefixes := [],
    IptablesMarkAccept := 0, IptablesMarkNextTier := 0, OpenStackMetadataIP := [],
    OpenStackMetadataPort := 0, OpenStackSpecialCasesEnabled := false,
    IPIPEnabled := false, IPIPTunnelAddress := [],
    ActionOnDrop := actionOnDrop, EndpointToHostAction := endpointToHostAction }

/-- The values of `ActionOnDrop` named by the configuration surface. -/
def recognizedActionOnDrop : List GoString :=
  [lit "DROP", lit "ACCEPT", lit "LOG-DROP", lit "LOG-ACCEPT"]

/-- The names the current version generates that `rule_defs.go` defines:
the two current prefixes, the fixed chain names and the sub-prefixes. -/
def currentNames : List GoString :=
  [ChainNamePrefix, IPSetNamePrefix] ++ fixedChainNames ++ entityKindPfxs

/-- The entries of the three historic registries. -/
def historicEntries : List GoString :=
  AllHistoricChainNamePrefixes ++ AllHistoricIPSetNamePrefixes ++ LegacyV4IPSetNames

/-- The terminating actions the constructor can emit: Accept, Drop, Return. -/
def terminalActions : List Action :=
  [Action.AcceptAction, Action.DropAction, Action.ReturnAction]

/-- The action lists `NewRenderer` can build. -/
def actionListShapes : List (List Action) :=
  [[Action.LogAction (lit "calico-drop"), Action.AcceptAction],
   [Action.LogAction (lit "calico-drop"), Action.DropAction],
   [Action.AcceptAction], [Action.DropAction], [Action.ReturnAction]]

/-- A byte allowed in a chain name: an ASCII letter, a digit or `-`. -/
def isNameByte (b : uint8) : Bool :=
  (decide (97 ≤ b.val) && decide (b.val ≤ 122))
    || (decide (65 ≤ b.val) && decide (b.val ≤ 90))
    || (decide (48 ≤ b.val) && decide (b.val ≤ 57))
    || decide (b.val = 45)

/-- A second configuration for the scenarios: it differs from
`exampleConfig` in the fields other than the two action options. -/
def otherConfig (actionOnDrop endpointToHostAction : GoString) : Config Unit :=
  { IPSetConfigV4 := some (), IPSetConfigV6 := none,
    WorkloadIfacePrefixes := [lit "tap"],
    IptablesMarkAccept := 8, IptablesMarkNextTier := 16,
    OpenStackMetadataIP := [169, 254, 169, 254],
    OpenStackMetadataPort := 80, OpenStackSpecialCasesEnabled := true,
    IPIPEnabled := true, IPIPTunnelAddress := [10, 0, 0, 1],
    ActionOnDrop := actionOnDrop, EndpointToHostAction := endpointToHostAction }

/-! ## The historic NAT rule pattern (rule_defs.go, lines 61-71)

The pattern is a Go `regexp` pattern. Package `regexp` is the Go standard
library; it is modelled by the regular expressions of Mathlib over bytes,
whose matcher `rmatch` works by derivatives. `Compile` reads the part of the
pattern syntax that the constant uses: literal bytes, `.`, a postfix `*` and
`|` between alternatives; every other metacharacter is refused. In the
pattern `.` stands only under `*`, where matching byte by byte and matching
rune by rune accept the same strings: the strings without a newline byte. -/

/-- The pattern `HistoricInsertedNATRuleRegex`, the concatenation of the two
raw string literals of the source. -/
def HistoricInsertedNATRuleRegex : GoString :=
  lit "-A POSTROUTING .* felix-masq-ipam-pools .*|" ++
  lit "-A POSTROUTING -o tunl0 -m addrtype ! --src-type LOCAL --limit-iface-out -m addrtype --src-type LOCAL -j MASQUERADE"

/-- A compiled regular expression over bytes. -/
abbrev Regexp := RegularExpression uint8

/-- The meaning of `.` without the `s` flag: any byte but the newline (10). -/
def anyCharNotNL : Regexp :=
  ((List.finRange 256).filter (fun b => decide (b ≠ 10))).foldr
    (fun b r => RegularExpression.plus (RegularExpression.char b) r) RegularExpression.zero

/-- The metacharacters of the pattern syntax: backslash and `. + * ? ( ) |`,
the square brackets, the braces, `^` and `$`. -/
def isMetaByte (b : uint8) : Bool :=
  decide (b ∈ ([92, 46, 43, 42, 63, 40, 41, 124, 91, 93, 123, 125, 94, 36] : List uint8))

/-- One atom of a pattern: `.` (46), or a byte that is not a metacharacter. -/
def parseAtom (c : uint8) : Option Regexp :=
  if c = 46 then some anyCharNotNL
  else if isMetaByte c then none
  else some (RegularExpression.char c)

/-- A concatenation of atoms, each optionally followed by `*` (42). -/
def parseConcat : GoString → Option Regexp
  | [] => some RegularExpression.epsilon
  | [c] => (parseAtom c).map (fun atom => RegularExpression.comp atom RegularExpression.epsilon)
  | c :: d :: rest =>
    match parseAtom c with
    | none => none
    | some atom =>
      if d = 42 then
        (parseConcat rest).map (RegularExpression.comp (RegularExpression.star atom))
      else
        (parseConcat (d :: rest)).map (RegularExpression.comp atom)

/-- The alternatives of a pattern: its pieces between the `|` bytes (124). -/
def splitAlternatives : GoString → List GoString
  | [] => [[]]
  | c :: rest =>
    match splitAlternatives rest with
    | [] => [[c]]
    | a :: as => if c = 124 then [] :: a :: as else (c :: a) :: as

/-- The alternation of the parsed alternatives. -/
def parseAlternate : List GoString → Option Regexp
  | [] => none
  | [a] => parseConcat a
  | a :: as =>
    match parseConcat a, parseAlternate as with
    | some r, some rs => some (RegularExpression.plus r rs)
    | _, _ => none

/-- The compilation of a pattern, `none` for a pattern outside the supported
syntax. -/
def Compile (pat : GoString) : Option Regexp := parseAlternate (splitAlternatives pat)

/-- Whole-line semantics: the pattern matches all of `s`. -/
def FullMatch (pat s : GoString) : Option Bool :=
  (Compile pat).map (fun re => re.rmatch s)

/-- Search semantics of `MatchString`: the pattern matches some substring of
`s`. -/
def MatchString (pat s : GoString) : Option Bool :=
  (Compile pat).map (fun re => s.tails.any (fun t => t.inits.any (fun m => re.rmatch m)))

/-- The expression of the literal `s` followed by `k`. -/
def litThen (s : GoString) (k : Regexp) : Regexp :=
  s.foldr (fun c r => RegularExpression.comp (RegularExpression.char c) r) k

/-- The compiled form of `HistoricInsertedNATRuleRegex`. -/
def historicRegexp : Regexp :=
  RegularExpression.plus
    (litThen (lit "-A POSTROUTING ")
      (RegularExpression.comp (RegularExpression.star anyCharNotNL)
        (litThen (lit " felix-masq-ipam-pools ")
          (RegularExpression.comp (RegularExpression.star anyCharNotNL)
            RegularExpression.epsilon))))
    (litThen (lit "-A POSTROUTING -o tunl0 -m addrtype ! --src-type LOCAL --limit-iface-out -m addrtype --src-type LOCAL -j MASQUERADE")
      RegularExpression.epsilon)

/-! ## Unfolding lemmas -/

theorem dropActions_eq (c : Config IPVersionConfig) :
    (NewRenderer c).1.dropActions =
      if HasPrefix c.ActionOnDrop (lit "LOG-") then
        [Action.LogAction (lit "calico-drop"),
         if HasSuffix c.ActionOnDrop (lit "ACCEPT") then Action.AcceptAction
         else Action.DropAction]
      else
        [if HasSuffix c.ActionOnDrop (lit "ACCEPT") then Action.AcceptAction
         else Action.DropAction] := by
  unfold NewRenderer
  by_cases h₁ : HasPrefix c.ActionOnDrop (lit "LOG-") = true <;>
    by_cases h₂ : HasSuffix c.ActionOnDrop (lit "ACCEPT") = true <;>
    simp [h₁, h₂]

theorem inputAcceptActions_eq (c : Config IPVersionConfig) :
    (NewRenderer c).1.inputAcceptActions =
      if c.EndpointToHostAction = lit "DROP" then (NewRenderer c).1.dropActions
      else if c.EndpointToHostAction = lit "ACCEPT" then [Action.AcceptAction]
      else [Action.ReturnAction] := by
  unfold NewRenderer
  rfl

/-! ## Properties of the action resolver -/

/-- C1: the last element of the drop-path list built by `NewRenderer c` is
Accept when `c.ActionOnDrop` ends with "ACCEPT" and Drop otherwise; it is
Accept for "ACCEPT" and "LOG-ACCEPT" and Drop for "DROP" and "LOG-DROP",
whatever the other fields of the configuration are. -/
theorem NewRenderer_dropActions_last (c : Config IPVersionConfig) :
    (NewRenderer c).1.dropActions.getLast? =
        some (if HasSuffix c.ActionOnDrop (lit "ACCEPT") then Action.AcceptAction
              else Action.DropAction)
    ∧ (NewRenderer { c with ActionOnDrop := lit "ACCEPT" }).1.dropActions.getLast?
        = some Action.AcceptAction
    ∧ (NewRenderer { c with ActionOnDrop := lit "LOG-ACCEPT" }).1.dropActions.getLast?
        = some Action.AcceptAction
    ∧ (NewRenderer { c with ActionOnDrop := lit "DROP" }).1.dropActions.getLast?
        = some Action.DropAction
    ∧ (NewRenderer { c with ActionOnDrop := lit "LOG-DROP" }).1.dropActions.getLast?
        = some Action.DropAction := by
  have key : ∀ d : Config IPVersionConfig, (NewRenderer d).1.dropActions.getLast? =
      some (if HasSuffix d.ActionOnDrop (lit "ACCEPT") then Action.AcceptAction
            else Action.DropAction) := by
    intro d
    rw [dropActions_eq]
    split <;> rfl
  refine ⟨key c, ?_, ?_, ?_, ?_⟩ <;> rw [key] <;> dsimp only <;> decide

/-- C2: the drop-path list of `NewRenderer c` is exactly
`[Log "calico-drop", t]` when `c.ActionOnDrop` starts with "LOG-" and exactly
`[t]` otherwise, `t` being the terminating action (Accept or Drop, chosen by
the "ACCEPT" suffix); hence the list holds a Log action if and only if the
value has the "LOG-" prefix, and every Log action in it carries the prefix
"calico-drop". -/
theorem NewRenderer_dropActions_shape (c : Config IPVersionConfig) :
    (NewRenderer c).1.dropActions =
        (if HasPrefix c.ActionOnDrop (lit "LOG-") then
           [Action.LogAction (lit "calico-drop"),
            if HasSuffix c.ActionOnDrop (lit "ACCEPT") then Action.AcceptAction
            else Action.DropAction]
         else
           [if HasSuffix c.ActionOnDrop (lit "ACCEPT") then Action.AcceptAction
            else Action.DropAction])
    ∧ ((∃ p, Action.LogAction p ∈ (NewRenderer c).1.dropActions)
        ↔ HasPrefix c.ActionOnDrop (lit "LOG-") = true)
    ∧ (∀ p, Action.LogAction p ∈ (NewRenderer c).1.dropActions → p = lit "calico-drop") := by
  have h := dropActions_eq c
  refine ⟨h, ?_, ?_⟩
  · rw [h]
    by_cases h₁ : HasPrefix c.ActionOnDrop (lit "LOG-") = true <;>
      by_cases h₂ : HasSuffix c.ActionOnDrop (lit "ACCEPT") = true <;>
      simp [h₁, h₂]
  · intro p
    rw [h]
    by_cases h₁ : HasPrefix c.ActionOnDrop (lit "LOG-") = true <;>
      by_cases h₂ : HasSuffix c.ActionOnDrop (lit "ACCEPT") = true <;>
      simp [h₁, h₂]

/-- Scenario of C2: `ActionOnDrop` "LOG-ACCEPT" gives the drop-path list
`[Log "calico-drop", Accept]`. -/
theorem NewRenderer_dropActions_shape_witness :
    (NewRenderer (exampleConfig (lit "LOG-ACCEPT") (lit "DROP"))).1.dropActions
      = [Action.LogAction (lit "calico-drop"), Action.AcceptAction] :=
  (NewRenderer_dropActions_shape (exampleConfig (lit "LOG-ACCEPT") (lit "DROP"))).1.trans
    (by decide)

/-- C3: the input-accept-path list of `NewRenderer c` is the drop-path list
of the same renderer when `c.EndpointToHostAction` is "DROP", the one-element
list `[Accept]` when it is "ACCEPT", and the one-element list `[Return]` for
every other string, the empty string included. -/
theorem NewRenderer_inputAcceptActions (c : Config IPVersionConfig) :
    (c.EndpointToHostAction = lit "DROP" →
        (NewRenderer c).1.inputAcceptActions = (NewRenderer c).1.dropActions)
    ∧ (c.EndpointToHostAction = lit "ACCEPT" →
        (NewRenderer c).1.inputAcceptActions = [Action.AcceptAction])
    ∧ (c.EndpointToHostAction ≠ lit "DROP" → c.EndpointToHostAction ≠ lit "ACCEPT" →
        (NewRenderer c).1.inputAcceptActions = [Action.ReturnAction])
    ∧ (c.EndpointToHostAction = lit "" →
        (NewRenderer c).1.inputAcceptActions = [Action.ReturnAction]) := by
  have h := inputAcceptActions_eq c
  refine ⟨?_, ?_, ?_, ?_⟩
  · intro e
    rw [h, if_pos e]
  · intro e
    have hne : c.EndpointToHostAction ≠ lit "DROP" := by rw [e]; decide
    rw [h, if_neg hne, if_pos e]
  · intro e₁ e₂
    rw [h, if_neg e₁, if_neg e₂]
  · intro e
    have hne₁ : c.EndpointToHostAction ≠ lit "DROP" := by rw [e]; decide
    have hne₂ : c.EndpointToHostAction ≠ lit "ACCEPT" := by rw [e]; decide
    rw [h, if_neg hne₁, if_neg hne₂]

/-- Scenario of C3: `ActionOnDrop` "DROP" with an empty `EndpointToHostAction`
gives the input-accept-path list `[Return]`. -/
theorem NewRenderer_inputAcceptActions_witness :
    (NewRenderer (exampleConfig (lit "DROP") (lit ""))).1.inputAcceptActions
      = [Action.ReturnAction] :=
  (NewRenderer_inputAcceptActions (exampleConfig (lit "DROP") (lit ""))).2.2.2 rfl

/-- C4, as stated, fails: "LOG_ACCEPT" is not one of the recognized values of
`ActionOnDrop`, yet the drop-path list of the renderer built from it is
`[Accept]`: its terminating action is Accept, not Drop. -/
theorem unrecognized_ActionOnDrop_may_accept :
    lit "LOG_ACCEPT" ∉ recognizedActionOnDrop
    ∧ (NewRenderer (exampleConfig (lit "LOG_ACCEPT") (lit ""))).1.dropActions
        = [Action.AcceptAction]
    ∧ ¬ ((NewRenderer (exampleConfig (lit "LOG_ACCEPT") (lit ""))).1.dropActions.getLast?
          = some Action.DropAction
        ∧ Action.AcceptAction ∉
          (NewRenderer (exampleConfig (lit "LOG_ACCEPT") (lit ""))).1.dropActions) := by
  decide

/-- C4, amended: for every configuration whose `ActionOnDrop` is not one of
the recognized values and does not end with "ACCEPT", the terminating action
of the drop-path list is Drop and the list contains no Accept action. -/
theorem unrecognized_ActionOnDrop_drops (c : Config IPVersionConfig)
    (_hrec : c.ActionOnDrop ∉ recognizedActionOnDrop)
    (hsfx : HasSuffix c.ActionOnDrop (lit "ACCEPT") = false) :
    (NewRenderer c).1.dropActions.getLast? = some Action.DropAction
    ∧ Action.AcceptAction ∉ (NewRenderer c).1.dropActions := by
  rw [dropActions_eq]
  by_cases h₁ : HasPrefix c.ActionOnDrop (lit "LOG-") = true <;> simp [h₁, hsfx]

/-- Instance of the amended C4 at the unrecognized value "LOG-REJECT". -/
theorem unrecognized_ActionOnDrop_drops_witness :
    (NewRenderer (exampleConfig (lit "LOG-REJECT") (lit "ACCEPT"))).1.dropActions.getLast?
        = some Action.DropAction
    ∧ Action.AcceptAction ∉
        (NewRenderer (exampleConfig (lit "LOG-REJECT") (lit "ACCEPT"))).1.dropActions :=
  unrecognized_ActionOnDrop_drops (exampleConfig (lit "LOG-REJECT") (lit "ACCEPT"))
    (by decide) (by decide)

/-! ## Properties of the IP-set configuration lookup -/

/-- C5: `r.ipSetConfig v` aborts with "Unknown IP version" if and only if `v`
is neither 4 nor 6; it returns a configuration if and only if `v` is 4 or 6,
so no version outside 4 and 6 yields a configuration, and 4 and 6 both
return. -/
theorem ipSetConfig_aborts_iff (r : ruleRenderer IPVersionConfig) (v : uint8) :
    (r.ipSetConfig v = Except.error (lit "Unknown IP version") ↔ (v ≠ 4 ∧ v ≠ 6))
    ∧ ((∃ cfg, r.ipSetConfig v = Except.ok cfg) ↔ (v = 4 ∨ v = 6))
    ∧ (∃ cfg, r.ipSetConfig 4 = Except.ok cfg)
    ∧ (∃ cfg, r.ipSetConfig 6 = Except.ok cfg) := by
  refine ⟨?_, ?_, ⟨r.IPSetConfigV4, rfl⟩, ⟨r.IPSetConfigV6, rfl⟩⟩
  · unfold ruleRenderer.ipSetConfig
    by_cases h4 : v = 4
    · simp [h4]
    · by_cases h6 : v = 6
      · subst h6
        simp
      · simp [h4, h6]
  · unfold ruleRenderer.ipSetConfig
    by_cases h4 : v = 4
    · simp [h4]
    · by_cases h6 : v = 6
      · subst h6
        simp
      · simp [h4, h6]

/-- C6: `r.ipSetConfig 4` returns exactly `r.IPSetConfigV4` and
`r.ipSetConfig 6` returns exactly `r.IPSetConfigV6`; whenever the two fields
differ, the lookup for one version does not return the field of the other. -/
theorem ipSetConfig_returns_own_version (r : ruleRenderer IPVersionConfig) :
    r.ipSetConfig 4 = Except.ok r.IPSetConfigV4
    ∧ r.ipSetConfig 6 = Except.ok r.IPSetConfigV6
    ∧ (r.IPSetConfigV4 ≠ r.IPSetConfigV6 →
        r.ipSetConfig 4 ≠ Except.ok r.IPSetConfigV6
        ∧ r.ipSetConfig 6 ≠ Except.ok r.IPSetConfigV4) := by
  refine ⟨rfl, rfl, ?_⟩
  intro hne
  constructor
  · intro h
    have h' : (Except.ok r.IPSetConfigV4 : Except GoString (Option IPVersionConfig))
        = Except.ok r.IPSetConfigV6 := h
    exact hne (Except.ok.inj h')
  · intro h
    have h' : (Except.ok r.IPSetConfigV6 : Except GoString (Option IPVersionConfig))
        = Except.ok r.IPSetConfigV4 := h
    exact hne (Except.ok.inj h').symm

/-! ## Facts about `HasPrefix` -/

theorem HasPrefix_iff (s p : GoString) :
    HasPrefix s p = true ↔ ∃ t, s = p ++ t := by
  unfold HasPrefix
  constructor
  · intro h
    simp only [Bool.and_eq_true, decide_eq_true_eq, beq_iff_eq] at h
    refine ⟨s.drop p.length, ?_⟩
    conv_lhs => rw [← List.take_append_drop p.length s]
    rw [h.2]
  · rintro ⟨t, rfl⟩
    simp

theorem HasPrefix_append_right (n p s : GoString) (h : HasPrefix n p = true) :
    HasPrefix (n ++ s) p = true := by
  obtain ⟨t, rfl⟩ := (HasPrefix_iff n p).1 h
  exact (HasPrefix_iff _ _).2 ⟨t ++ s, by simp⟩

theorem HasPrefix_head (x e : GoString) (h : HasPrefix x e = true) (hne : e ≠ []) :
    x.head? = e.head? := by
  obtain ⟨t, rfl⟩ := (HasPrefix_iff x e).1 h
  cases e with
  | nil => exact absurd rfl hne
  | cons a l => rfl

/-! ## Properties of the naming constants -/

theorem entityKindPfxs_length : ∀ p ∈ entityKindPfxs, p.length = 7 := by decide

/-- C7: the six entity-kind sub-prefixes are pairwise distinct, none is a
prefix of another, and for two different sub-prefixes `p` and `q` and all
strings `s` and `t` (equal or not) `p ++ s` differs from `q ++ t`. -/
theorem entityKindPfxs_never_collide :
    entityKindPfxs.Nodup
    ∧ entityKindPfxs.length = 6
    ∧ (∀ p ∈ entityKindPfxs, ∀ q ∈ entityKindPfxs, p ≠ q → HasPrefix p q = false)
    ∧ (∀ p ∈ entityKindPfxs, ∀ q ∈ entityKindPfxs, p ≠ q →
        ∀ s t : GoString, p ++ s ≠ q ++ t) := by
  refine ⟨by decide, rfl, by decide, ?_⟩
  intro p hp q hq hne s t heq
  have hlen : p.length = q.length := by
    rw [entityKindPfxs_length p hp, entityKindPfxs_length q hq]
  exact hne (List.append_inj heq hlen).1

/-- C9: every fixed chain-name constant and every entity-kind sub-prefix
begins with `ChainNamePrefix`; `ChainNamePrefix` is an entry of
`AllHistoricChainNamePrefixes` and `IPSetNamePrefix` an entry of
`AllHistoricIPSetNamePrefixes`; hence every name built from the current
chain prefix, from the current IP-set prefix, or from one of the constants
begins with an entry of the corresponding historic list. -/
theorem current_names_begin_with_historic_entry :
    (∀ n ∈ fixedChainNames ++ entityKindPfxs, HasPrefix n ChainNamePrefix = true)
    ∧ ChainNamePrefix ∈ AllHistoricChainNamePrefixes
    ∧ IPSetNamePrefix ∈ AllHistoricIPSetNamePrefixes
    ∧ (∀ s : GoString, ∃ p ∈ AllHistoricChainNamePrefixes,
        HasPrefix (ChainNamePrefix ++ s) p = true)
    ∧ (∀ s : GoString, ∃ p ∈ AllHistoricIPSetNamePrefixes,
        HasPrefix (IPSetNamePrefix ++ s) p = true)
    ∧ (∀ n ∈ fixedChainNames ++ entityKindPfxs, ∀ s : GoString,
        ∃ p ∈ AllHistoricChainNamePrefixes, HasPrefix (n ++ s) p = true) := by
  have hall : ∀ n ∈ fixedChainNames ++ entityKindPfxs,
      HasPrefix n ChainNamePrefix = true := by decide
  have hc : ChainNamePrefix ∈ AllHistoricChainNamePrefixes := by decide
  have hi : IPSetNamePrefix ∈ AllHistoricIPSetNamePrefixes := by decide
  refine ⟨hall, hc, hi, ?_, ?_, ?_⟩
  · intro s
    exact ⟨ChainNamePrefix, hc, (HasPrefix_iff _ _).2 ⟨s, rfl⟩⟩
  · intro s
    exact ⟨IPSetNamePrefix, hi, (HasPrefix_iff _ _).2 ⟨s, rfl⟩⟩
  · intro n hn s
    exact ⟨ChainNamePrefix, hc, HasPrefix_append_right n _ s (hall n hn)⟩

/-- C10, as stated, fails: "cali" is an entry of both historic prefix lists,
it equals the current `ChainNamePrefix` and `IPSetNamePrefix`, and it is a
prefix of the current chain name `ChainFilterInput`. -/
theorem historic_lists_hold_current_pfx :
    lit "cali" ∈ AllHistoricChainNamePrefixes
    ∧ lit "cali" ∈ AllHistoricIPSetNamePrefixes
    ∧ lit "cali" = ChainNamePrefix
    ∧ lit "cali" = IPSetNamePrefix
    ∧ HasPrefix ChainFilterInput (lit "cali") = true
    ∧ ¬ (∀ e ∈ historicEntries, ∀ n ∈ currentNames, e ≠ n ∧ HasPrefix n e = false) := by
  decide

/-- C10, amended: every entry of `AllHistoricChainNamePrefixes`,
`AllHistoricIPSetNamePrefixes` and `LegacyV4IPSetNames` other than the
current prefix "cali" neither equals nor is a prefix of a current name
(`ChainNamePrefix`, `IPSetNamePrefix`, a fixed chain name, a sub-prefix), nor
of any name obtained by appending to one. -/
theorem old_historic_entries_miss_current_names (e : GoString)
    (he : e ∈ historicEntries) (hcur : e ≠ lit "cali")
    (n : GoString) (hn : n ∈ currentNames) (s : GoString) :
    e ≠ n ∧ HasPrefix n e = false ∧ HasPrefix (n ++ s) e = false := by
  have hE : ∀ e ∈ historicEntries, e ≠ lit "cali" → e ≠ [] ∧ e.head? = some 102 := by
    decide
  have hN : ∀ n ∈ currentNames, n.head? = some 99 ∧ n ≠ [] := by decide
  obtain ⟨hene, hehead⟩ := hE e he hcur
  obtain ⟨hnhead, hnne⟩ := hN n hn
  have key : ∀ x : GoString, x.head? = some 99 → HasPrefix x e = false := by
    intro x hx
    cases hpx : HasPrefix x e with
    | false => rfl
    | true =>
      have := HasPrefix_head x e hpx hene
      rw [hx, hehead] at this
      exact absurd this (by decide)
  refine ⟨?_, key n hnhead, key (n ++ s) ?_⟩
  · intro heq
    rw [heq, hnhead] at hehead
    exact absurd hehead (by decide)
  · cases n with
    | nil => exact absurd rfl hnne
    | cons a l => exact hnhead

/-- Instance of the amended C10: the legacy IP-set name
"felix-masq-ipam-pools" against the policy-inbound sub-prefix. -/
theorem old_historic_entries_miss_current_names_witness :
    lit "felix-masq-ipam-pools" ≠ PolicyInboundPfx
    ∧ HasPrefix PolicyInboundPfx (lit "felix-masq-ipam-pools") = false
    ∧ HasPrefix (PolicyInboundPfx ++ lit "policy1") (lit "felix-masq-ipam-pools") = false :=
  old_historic_entries_miss_current_names (lit "felix-masq-ipam-pools")
    (by decide) (by decide) PolicyInboundPfx (by decide) (lit "policy1")

/-! ## Diagnostics of the constructor -/

/-- C8, as stated, fails: with `ActionOnDrop` "DROP" and
`EndpointToHostAction` "ACCEPT" (accepting workload-to-host traffic) the
constructor emits a single info-level entry and no warning-level entry. -/
theorem accept_to_host_emits_no_warning :
    (NewRenderer (exampleConfig (lit "DROP") (lit "ACCEPT"))).2
        = [⟨Level.InfoLevel, lit "Workload to host packets will be accepted."⟩]
    ∧ ¬ ∃ e ∈ (NewRenderer (exampleConfig (lit "DROP") (lit "ACCEPT"))).2,
        e.level = Level.WarnLevel := by
  decide

/-- C8, amended: `NewRenderer c` emits at least one warning-level diagnostic
exactly when `c.ActionOnDrop` starts with "LOG-" or ends with "ACCEPT";
`c.EndpointToHostAction` = "ACCEPT" is reported by an info-level diagnostic. -/
theorem NewRenderer_warns_iff (c : Config IPVersionConfig) :
    ((∃ e ∈ (NewRenderer c).2, e.level = Level.WarnLevel)
      ↔ (HasPrefix c.ActionOnDrop (lit "LOG-") = true
          ∨ HasSuffix c.ActionOnDrop (lit "ACCEPT") = true))
    ∧ (c.EndpointToHostAction = lit "ACCEPT" →
        (⟨Level.InfoLevel, lit "Workload to host packets will be accepted."⟩ : LogEntry)
          ∈ (NewRenderer c).2) := by
  have hne : lit "ACCEPT" ≠ lit "DROP" := by decide
  constructor
  · unfold NewRenderer
    by_cases h₁ : HasPrefix c.ActionOnDrop (lit "LOG-") = true <;>
      by_cases h₂ : HasSuffix c.ActionOnDrop (lit "ACCEPT") = true <;>
      by_cases h₃ : c.EndpointToHostAction = lit "DROP" <;>
      by_cases h₄ : c.EndpointToHostAction = lit "ACCEPT" <;>
      simp [h₁, h₂, h₃, h₄, hne]
  · intro h
    unfold NewRenderer
    simp [h, hne]

/-! ## Shape and dependencies of the action lists -/

theorem action_lists_mem_shapes (c : Config IPVersionConfig) :
    (NewRenderer c).1.dropActions ∈ actionListShapes
    ∧ (NewRenderer c).1.inputAcceptActions ∈ actionListShapes := by
  rw [inputAcceptActions_eq, dropActions_eq]
  by_cases h₁ : HasPrefix c.ActionOnDrop (lit "LOG-") = true <;>
    by_cases h₂ : HasSuffix c.ActionOnDrop (lit "ACCEPT") = true <;>
    by_cases h₃ : c.EndpointToHostAction = lit "DROP" <;>
    by_cases h₄ : c.EndpointToHostAction = lit "ACCEPT" <;>
    simp only [h₁, h₂, h₃, h₄, if_true, if_false, Bool.false_eq_true] <;>
    exact ⟨by decide, by decide⟩

/-- C13: both action lists of `NewRenderer c` are non-empty; their last
element is a terminating action (Accept, Drop or Return); every element
before the last is a Log action; so each list holds exactly one terminating
action and has length 1 or 2. -/
theorem NewRenderer_action_lists_terminate (c : Config IPVersionConfig) :
    ∀ l ∈ [(NewRenderer c).1.dropActions, (NewRenderer c).1.inputAcceptActions],
      l ≠ []
      ∧ (∃ t ∈ terminalActions, l.getLast? = some t)
      ∧ (∀ a ∈ l.dropLast, a ∉ terminalActions ∧ ∃ p, a = Action.LogAction p)
      ∧ (l.filter (fun a => decide (a ∈ terminalActions))).length = 1
      ∧ (l.length = 1 ∨ l.length = 2) := by
  have key : ∀ l ∈ actionListShapes,
      l ≠ []
      ∧ (∃ t ∈ terminalActions, l.getLast? = some t)
      ∧ (∀ a ∈ l.dropLast, a ∉ terminalActions ∧ a = Action.LogAction (lit "calico-drop"))
      ∧ (l.filter (fun a => decide (a ∈ terminalActions))).length = 1
      ∧ (l.length = 1 ∨ l.length = 2) := by decide
  intro l hl
  have hmem : l ∈ actionListShapes := by
    rcases List.mem_pair.1 hl with h | h
    · rw [h]; exact (action_lists_mem_shapes c).1
    · rw [h]; exact (action_lists_mem_shapes c).2
  obtain ⟨k₁, k₂, k₃, k₄, k₅⟩ := key l hmem
  exact ⟨k₁, k₂, fun a ha => ⟨(k₃ a ha).1, _, (k₃ a ha).2⟩, k₄, k₅⟩

/-- Instance of C13: the input-accept-path list of the scenario with
`ActionOnDrop` "LOG-ACCEPT" and `EndpointToHostAction` "DROP". -/
theorem NewRenderer_action_lists_terminate_witness :
    (NewRenderer (exampleConfig (lit "LOG-ACCEPT") (lit "DROP"))).1.inputAcceptActions ≠ []
    ∧ (∃ t ∈ terminalActions,
        (NewRenderer (exampleConfig (lit "LOG-ACCEPT") (lit "DROP"))).1.inputAcceptActions.getLast?
          = some t)
    ∧ (∀ a ∈ (NewRenderer (exampleConfig (lit "LOG-ACCEPT") (lit "DROP"))).1.inputAcceptActions.dropLast,
        a ∉ terminalActions ∧ ∃ p, a = Action.LogAction p)
    ∧ ((NewRenderer (exampleConfig (lit "LOG-ACCEPT") (lit "DROP"))).1.inputAcceptActions.filter
        (fun a => decide (a ∈ terminalActions))).length = 1
    ∧ ((NewRenderer (exampleConfig (lit "LOG-ACCEPT") (lit "DROP"))).1.inputAcceptActions.length = 1
      ∨ (NewRenderer (exampleConfig (lit "LOG-ACCEPT") (lit "DROP"))).1.inputAcceptActions.length = 2) :=
  NewRenderer_action_lists_terminate (exampleConfig (lit "LOG-ACCEPT") (lit "DROP")) _
    (List.mem_cons_of_mem _ (List.mem_singleton.2 rfl))

/-- C14, as stated, fails: with `EndpointToHostAction` "DROP" and
`ActionOnDrop` "ACCEPT" the input-accept-path list is `[Accept]`: it does not
terminate in Drop and it contains an Accept action, while the constructor
logs "Workload to host packets will be dropped.". -/
theorem drop_to_host_may_accept :
    (NewRenderer (exampleConfig (lit "ACCEPT") (lit "DROP"))).1.inputAcceptActions
        = [Action.AcceptAction]
    ∧ (⟨Level.InfoLevel, lit "Workload to host packets will be dropped."⟩ : LogEntry)
        ∈ (NewRenderer (exampleConfig (lit "ACCEPT") (lit "DROP"))).2
    ∧ ¬ ((NewRenderer (exampleConfig (lit "ACCEPT") (lit "DROP"))).1.inputAcceptActions.getLast?
          = some Action.DropAction
        ∧ Action.AcceptAction ∉
          (NewRenderer (exampleConfig (lit "ACCEPT") (lit "DROP"))).1.inputAcceptActions) := by
  decide

/-- C14, amended: for every configuration with `EndpointToHostAction` "DROP"
the input-accept-path list is the drop-path list; it terminates in Drop and
contains no Accept action when `ActionOnDrop` does not end with "ACCEPT", and
it terminates in Accept when `ActionOnDrop` ends with "ACCEPT". -/
theorem drop_to_host_follows_drop_path (c : Config IPVersionConfig)
    (h : c.EndpointToHostAction = lit "DROP") :
    (NewRenderer c).1.inputAcceptActions = (NewRenderer c).1.dropActions
    ∧ (HasSuffix c.ActionOnDrop (lit "ACCEPT") = false →
        (NewRenderer c).1.inputAcceptActions.getLast? = some Action.DropAction
        ∧ Action.AcceptAction ∉ (NewRenderer c).1.inputAcceptActions)
    ∧ (HasSuffix c.ActionOnDrop (lit "ACCEPT") = true →
        (NewRenderer c).1.inputAcceptActions.getLast? = some Action.AcceptAction) := by
  have e : (NewRenderer c).1.inputAcceptActions = (NewRenderer c).1.dropActions := by
    rw [inputAcceptActions_eq, if_pos h]
  refine ⟨e, ?_, ?_⟩
  · intro hs
    rw [e, dropActions_eq]
    by_cases h₁ : HasPrefix c.ActionOnDrop (lit "LOG-") = true <;> simp [h₁, hs]
  · intro hs
    rw [e, dropActions_eq]
    by_cases h₁ : HasPrefix c.ActionOnDrop (lit "LOG-") = true <;> simp [h₁, hs]

/-- Instance of the amended C14 at `ActionOnDrop` "LOG-DROP". -/
theorem drop_to_host_follows_drop_path_witness :
    (NewRenderer (exampleConfig (lit "LOG-DROP") (lit "DROP"))).1.inputAcceptActions
      = [Action.LogAction (lit "calico-drop"), Action.DropAction] :=
  (drop_to_host_follows_drop_path (exampleConfig (lit "LOG-DROP") (lit "DROP")) rfl).1.trans
    (by decide)

/-- C17: the drop-path list depends on `ActionOnDrop` only, the
input-accept-path list on `ActionOnDrop` and `EndpointToHostAction` only, and
when `EndpointToHostAction` is not "DROP" the input-accept-path list depends
on `EndpointToHostAction` only; no other field of the configuration
matters. -/
theorem NewRenderer_lists_depend_on_options (c₁ c₂ : Config IPVersionConfig) :
    (c₁.ActionOnDrop = c₂.ActionOnDrop →
        (NewRenderer c₁).1.dropActions = (NewRenderer c₂).1.dropActions)
    ∧ (c₁.ActionOnDrop = c₂.ActionOnDrop →
        c₁.EndpointToHostAction = c₂.EndpointToHostAction →
        (NewRenderer c₁).1.inputAcceptActions = (NewRenderer c₂).1.inputAcceptActions)
    ∧ (c₁.EndpointToHostAction = c₂.EndpointToHostAction →
        c₁.EndpointToHostAction ≠ lit "DROP" →
        (NewRenderer c₁).1.inputAcceptActions = (NewRenderer c₂).1.inputAcceptActions) := by
  refine ⟨?_, ?_, ?_⟩
  · intro h
    rw [dropActions_eq, dropActions_eq, h]
  · intro h h'
    rw [inputAcceptActions_eq, inputAcceptActions_eq, dropActions_eq, dropActions_eq, h, h']
  · intro h' hne
    have hne₂ : c₂.EndpointToHostAction ≠ lit "DROP" := h' ▸ hne
    rw [inputAcceptActions_eq, inputAcceptActions_eq, if_neg hne, if_neg hne₂, h']

/-- Instance of C17: two configurations that agree on the two action options
and differ in every other field yield the same input-accept-path list. -/
theorem NewRenderer_lists_depend_on_options_witness :
    exampleConfig (lit "LOG-ACCEPT") (lit "DROP") ≠ otherConfig (lit "LOG-ACCEPT") (lit "DROP")
    ∧ (NewRenderer (exampleConfig (lit "LOG-ACCEPT") (lit "DROP"))).1.inputAcceptActions
        = (NewRenderer (otherConfig (lit "LOG-ACCEPT") (lit "DROP"))).1.inputAcceptActions :=
  ⟨fun h => absurd (congrArg Config.IPIPEnabled h) (by decide),
   (NewRenderer_lists_depend_on_options _ _).2.1 rfl rfl⟩

/-- C18: the renderer returned by `NewRenderer c` holds `c` unchanged: its
embedded configuration is `c`, so each of its configuration fields equals the
field of `c`, and `ipSetConfig 4` on it returns `c.IPSetConfigV4`,
`ipSetConfig 6` returns `c.IPSetConfigV6`. -/
theorem NewRenderer_keeps_config (c : Config IPVersionConfig) :
    (NewRenderer c).1.toConfig = c
    ∧ (NewRenderer c).1.IPSetConfigV4 = c.IPSetConfigV4
    ∧ (NewRenderer c).1.IPSetConfigV6 = c.IPSetConfigV6
    ∧ (NewRenderer c).1.WorkloadIfacePrefixes = c.WorkloadIfacePrefixes
    ∧ (NewRenderer c).1.IptablesMarkAccept = c.IptablesMarkAccept
    ∧ (NewRenderer c).1.IptablesMarkNextTier = c.IptablesMarkNextTier
    ∧ (NewRenderer c).1.OpenStackMetadataIP = c.OpenStackMetadataIP
    ∧ (NewRenderer c).1.OpenStackMetadataPort = c.OpenStackMetadataPort
    ∧ (NewRenderer c).1.OpenStackSpecialCasesEnabled = c.OpenStackSpecialCasesEnabled
    ∧ (NewRenderer c).1.IPIPEnabled = c.IPIPEnabled
    ∧ (NewRenderer c).1.IPIPTunnelAddress = c.IPIPTunnelAddress
    ∧ (NewRenderer c).1.ActionOnDrop = c.ActionOnDrop
    ∧ (NewRenderer c).1.EndpointToHostAction = c.EndpointToHostAction
    ∧ (NewRenderer c).1.ipSetConfig 4 = Except.ok c.IPSetConfigV4
    ∧ (NewRenderer c).1.ipSetConfig 6 = Except.ok c.IPSetConfigV6 :=
  ⟨rfl, rfl, rfl, rfl, rfl, rfl, rfl, rfl, rfl, rfl, rfl, rfl, rfl, rfl, rfl⟩

/-! ## Uniqueness, length and character set of the chain names -/

/-- C15: the eleven fixed chain-name constants are pairwise distinct, none of
them begins with one of the six entity-kind sub-prefixes, and so for every
sub-prefix `p` and every string `s` the generated name `p ++ s` differs from
every fixed chain name. -/
theorem fixedChainNames_apart_from_generated :
    fixedChainNames.Nodup
    ∧ fixedChainNames.length = 11
    ∧ (∀ n ∈ fixedChainNames, ∀ p ∈ entityKindPfxs, HasPrefix n p = false)
    ∧ (∀ p ∈ entityKindPfxs, ∀ s : GoString, ∀ n ∈ fixedChainNames, p ++ s ≠ n) := by
  have hno : ∀ n ∈ fixedChainNames, ∀ p ∈ entityKindPfxs, HasPrefix n p = false := by
    decide
  refine ⟨by decide, rfl, hno, ?_⟩
  intro p hp s n hn heq
  have hpre : HasPrefix n p = true := (HasPrefix_iff n p).2 ⟨s, heq.symm⟩
  rw [hno n hn p hp] at hpre
  exact absurd hpre (by decide)

/-- C16: every fixed chain-name constant and every entity-kind sub-prefix
consists only of ASCII letters, digits and `-`; every fixed chain-name
constant is at most 28 bytes long; each of the six sub-prefixes is exactly 7
bytes long. -/
theorem chain_names_within_limits :
    (∀ n ∈ fixedChainNames ++ entityKindPfxs, n.all isNameByte = true)
    ∧ (∀ n ∈ fixedChainNames, n.length ≤ 28)
    ∧ (∀ p ∈ entityKindPfxs, p.length = 7) := by
  refine ⟨by decide, by decide, by decide⟩

/-! ## The language of the historic NAT rule pattern -/

set_option maxRecDepth 100000 in
theorem Compile_historic : Compile HistoricInsertedNATRuleRegex = some historicRegexp := by
  rfl

open RegularExpression in
theorem mem_foldr_plus_char (l : List uint8) (x : GoString) :
    x ∈ (l.foldr (fun b r => plus (char b) r) zero).matches' ↔ ∃ b ∈ l, x = [b] := by
  induction l with
  | nil =>
    simp only [List.foldr_nil, List.not_mem_nil, false_and, exists_false, iff_false]
    intro h
    exact h
  | cons a l ih =>
    simp only [List.foldr_cons, List.mem_cons, exists_eq_or_imp]
    rw [← ih]
    rfl

theorem mem_anyCharNotNL (x : GoString) :
    x ∈ anyCharNotNL.matches' ↔ ∃ b : uint8, b ≠ 10 ∧ x = [b] := by
  unfold anyCharNotNL
  rw [mem_foldr_plus_char]
  simp

set_option maxRecDepth 8000 in
theorem mem_star_anyCharNotNL (x : GoString) :
    x ∈ (RegularExpression.star anyCharNotNL).matches' ↔ (10 : uint8) ∉ x := by
  rw [RegularExpression.matches'_star, Language.mem_kstar]
  constructor
  · rintro ⟨L, rfl, hL⟩
    intro hmem
    rw [List.mem_flatten] at hmem
    obtain ⟨y, hy, h10⟩ := hmem
    have hy' := hL y hy
    rw [mem_anyCharNotNL] at hy'
    obtain ⟨b, hb, rfl⟩ := hy'
    rw [List.mem_singleton] at h10
    exact hb h10.symm
  · intro h
    refine ⟨x.map (fun b => [b]), ?_, ?_⟩
    · clear h
      induction x with
      | nil => rfl
      | cons a l ih => simp [← ih]
    · intro y hy
      rw [List.mem_map] at hy
      obtain ⟨b, hb, rfl⟩ := hy
      rw [mem_anyCharNotNL]
      exact ⟨b, fun e => h (e ▸ hb), rfl⟩

theorem mem_litThen (s : GoString) (k : Regexp) (x : GoString) :
    x ∈ (litThen s k).matches' ↔ ∃ y, y ∈ k.matches' ∧ x = s ++ y := by
  induction s generalizing x with
  | nil => simp [litThen]
  | cons c s ih =>
    have hstep : litThen (c :: s) k
        = RegularExpression.comp (RegularExpression.char c) (litThen s k) := rfl
    rw [hstep, RegularExpression.matches', Language.mem_mul]
    constructor
    · rintro ⟨a, ha, b, hb, rfl⟩
      obtain ⟨y, hy, rfl⟩ := (ih b).1 hb
      have ha' : a = [c] := ha
      exact ⟨y, hy, by rw [ha']; rfl⟩
    · rintro ⟨y, hy, rfl⟩
      exact ⟨[c], rfl, s ++ y, (ih _).2 ⟨y, hy, rfl⟩, rfl⟩

theorem search_iff (re : Regexp) (s : GoString) :
    s.tails.any (fun t => t.inits.any (fun m => re.rmatch m)) = true
      ↔ ∃ a m c, s = a ++ m ++ c ∧ m ∈ re.matches' := by
  simp only [List.any_eq_true, List.mem_tails, List.mem_inits,
    RegularExpression.rmatch_iff_matches']
  constructor
  · rintro ⟨t, ⟨a, rfl⟩, m, ⟨c, rfl⟩, hm⟩
    exact ⟨a, m, c, by simp, hm⟩
  · rintro ⟨a, m, c, rfl, hm⟩
    exact ⟨m ++ c, ⟨a, by simp⟩, m, ⟨c, rfl⟩, hm⟩

theorem mem_historicRegexp (x : GoString) :
    x ∈ historicRegexp.matches' ↔
      (∃ u v : GoString, (10 : uint8) ∉ u ∧ (10 : uint8) ∉ v
          ∧ x = lit "-A POSTROUTING " ++ u ++ lit " felix-masq-ipam-pools " ++ v)
      ∨ x = lit "-A POSTROUTING -o tunl0 -m addrtype ! --src-type LOCAL --limit-iface-out -m addrtype --src-type LOCAL -j MASQUERADE" := by
  unfold historicRegexp
  rw [RegularExpression.matches', Language.mem_add, mem_litThen, mem_litThen]
  constructor
  · rintro (⟨y, hy, rfl⟩ | ⟨y, hy, rfl⟩)
    · left
      rw [RegularExpression.matches', Language.mem_mul] at hy
      obtain ⟨u, hu, w, hw, rfl⟩ := hy
      obtain ⟨z, hz, rfl⟩ := (mem_litThen _ _ _).1 hw
      rw [RegularExpression.matches', Language.mem_mul] at hz
      obtain ⟨v, hv, e, he, rfl⟩ := hz
      have he' : e = [] := he
      subst he'
      exact ⟨u, v, (mem_star_anyCharNotNL u).1 hu, (mem_star_anyCharNotNL v).1 hv,
        by simp⟩
    · right
      have hy' : y = [] := hy
      rw [hy', List.append_nil]
  · rintro (⟨u, v, hu, hv, rfl⟩ | rfl)
    · left
      refine ⟨u ++ (lit " felix-masq-ipam-pools " ++ v), ?_, by simp⟩
      rw [RegularExpression.matches', Language.mem_mul]
      refine ⟨u, (mem_star_anyCharNotNL u).2 hu, _, (mem_litThen _ _ _).2 ⟨v, ?_, rfl⟩, rfl⟩
      rw [RegularExpression.matches', Language.mem_mul]
      exact ⟨v, (mem_star_anyCharNotNL v).2 hv, [], rfl, by simp⟩
    · right
      exact ⟨[], rfl, by simp⟩

theorem MatchString_historic_iff (s : GoString) :
    MatchString HistoricInsertedNATRuleRegex s = some true
      ↔ ∃ a m c, s = a ++ m ++ c ∧ m ∈ historicRegexp.matches' := by
  unfold MatchString
  rw [Compile_historic, Option.map_some', Option.some_inj]
  exact search_iff historicRegexp s

theorem FullMatch_historic_iff (s : GoString) :
    FullMatch HistoricInsertedNATRuleRegex s = some true ↔ s ∈ historicRegexp.matches' := by
  unfold FullMatch
  rw [Compile_historic, Option.map_some', Option.some_inj]
  exact RegularExpression.rmatch_iff_matches' historicRegexp s

theorem second_alternative_split :
    lit "-A POSTROUTING -o tunl0 -m addrtype ! --src-type LOCAL --limit-iface-out -m addrtype --src-type LOCAL -j MASQUERADE"
      = lit "-A POSTROUTING " ++
        lit "-o tunl0 -m addrtype ! --src-type LOCAL --limit-iface-out -m addrtype --src-type LOCAL -j MASQUERADE" := by
  decide

/-- C11: for all strings `x` and `y` without a newline byte, the line
"-A POSTROUTING " ++ x ++ " felix-masq-ipam-pools " ++ y is matched by
`HistoricInsertedNATRuleRegex`, both as a whole line and by the substring
search of `MatchString`. -/
theorem HistoricInsertedNATRuleRegex_matches_masq_rule (x y : GoString)
    (hx : (10 : uint8) ∉ x) (hy : (10 : uint8) ∉ y) :
    FullMatch HistoricInsertedNATRuleRegex
        (lit "-A POSTROUTING " ++ x ++ lit " felix-masq-ipam-pools " ++ y) = some true
    ∧ MatchString HistoricInsertedNATRuleRegex
        (lit "-A POSTROUTING " ++ x ++ lit " felix-masq-ipam-pools " ++ y) = some true := by
  have hmem : lit "-A POSTROUTING " ++ x ++ lit " felix-masq-ipam-pools " ++ y
      ∈ historicRegexp.matches' :=
    (mem_historicRegexp _).2 (Or.inl ⟨x, y, hx, hy, rfl⟩)
  refine ⟨(FullMatch_historic_iff _).2 hmem, (MatchString_historic_iff _).2 ?_⟩
  exact ⟨[], _, [], by simp, hmem⟩

/-- Instance of C11: the masquerade rule as `iptables-save` prints it. -/
theorem HistoricInsertedNATRuleRegex_matches_masq_rule_witness :
    FullMatch HistoricInsertedNATRuleRegex
        (lit "-A POSTROUTING " ++ lit "-m set --match-set" ++ lit " felix-masq-ipam-pools "
          ++ lit "src -j MASQUERADE") = some true
    ∧ MatchString HistoricInsertedNATRuleRegex
        (lit "-A POSTROUTING " ++ lit "-m set --match-set" ++ lit " felix-masq-ipam-pools "
          ++ lit "src -j MASQUERADE") = some true :=
  HistoricInsertedNATRuleRegex_matches_masq_rule (lit "-m set --match-set")
    (lit "src -j MASQUERADE") (by decide) (by decide)

/-- C12: every line (with or without a newline byte) in which
`HistoricInsertedNATRuleRegex` finds a match contains "-A POSTROUTING " and,
after it, either the token " felix-masq-ipam-pools " or, at once, the exact
text of the tunnel masquerade rule; a line without the substring
"-A POSTROUTING " is not matched. -/
theorem HistoricInsertedNATRuleRegex_only_POSTROUTING (line : GoString) :
    (MatchString HistoricInsertedNATRuleRegex line = some true →
      ∃ a b : GoString, line = a ++ lit "-A POSTROUTING " ++ b
        ∧ ((∃ u v : GoString, b = u ++ lit " felix-masq-ipam-pools " ++ v)
          ∨ (∃ c : GoString, b =
              lit "-o tunl0 -m addrtype ! --src-type LOCAL --limit-iface-out -m addrtype --src-type LOCAL -j MASQUERADE"
                ++ c)))
    ∧ ((¬ ∃ a b : GoString, line = a ++ lit "-A POSTROUTING " ++ b) →
        MatchString HistoricInsertedNATRuleRegex line = some false) := by
  have main : MatchString HistoricInsertedNATRuleRegex line = some true →
      ∃ a b : GoString, line = a ++ lit "-A POSTROUTING " ++ b
        ∧ ((∃ u v : GoString, b = u ++ lit " felix-masq-ipam-pools " ++ v)
          ∨ (∃ c : GoString, b =
              lit "-o tunl0 -m addrtype ! --src-type LOCAL --limit-iface-out -m addrtype --src-type LOCAL -j MASQUERADE"
                ++ c)) := by
    intro h
    obtain ⟨a, m, c, rfl, hm⟩ := (MatchString_historic_iff line).1 h
    rcases (mem_historicRegexp m).1 hm with ⟨u, v, _, _, rfl⟩ | rfl
    · exact ⟨a, u ++ lit " felix-masq-ipam-pools " ++ v ++ c, by simp,
        Or.inl ⟨u, v ++ c, by simp⟩⟩
    · refine ⟨a, _ ++ c, ?_, Or.inr ⟨c, rfl⟩⟩
      rw [second_alternative_split]
      simp
  refine ⟨main, ?_⟩
  intro hno
  have hsome : ∃ b, MatchString HistoricInsertedNATRuleRegex line = some b := by
    unfold MatchString
    rw [Compile_historic]
    exact ⟨_, rfl⟩
  obtain ⟨b, hb⟩ := hsome
  cases b with
  | false => exact hb
  | true =>
    obtain ⟨a, b, hab, _⟩ := main hb
    exact absurd ⟨a, b, hab⟩ hno

/-- Instance of C12: the tunnel masquerade rule itself. -/
theorem HistoricInsertedNATRuleRegex_only_POSTROUTING_witness :
    ∃ a b : GoString,
      lit "-A POSTROUTING -o tunl0 -m addrtype ! --src-type LOCAL --limit-iface-out -m addrtype --src-type LOCAL -j MASQUERADE"
        = a ++ lit "-A POSTROUTING " ++ b
      ∧ ((∃ u v : GoString, b = u ++ lit " felix-masq-ipam-pools " ++ v)
        ∨ (∃ c : GoString, b =
            lit "-o tunl0 -m addrtype ! --src-type LOCAL --limit-iface-out -m addrtype --src-type LOCAL -j MASQUERADE"
              ++ c)) :=
  (HistoricInsertedNATRuleRegex_only_POSTROUTING _).1
    ((MatchString_historic_iff _).2
      ⟨[], _, [], by simp, (mem_historicRegexp _).2 (Or.inr rfl)⟩)

end Felix.Rules
